import Mathlib

/-! Shallow embedding of the session-authentication subsystem of the ivevents
backend (src/backend/auth_routes.py and src/backend/models.py).

Timestamps are modelled as natural numbers (seconds of UTC time); a request
handler observes a single instant `now`, standing for the value of the
`utcnow()` calls made while serving that request.  Session and user ids
(UUIDs generated by `uuid.uuid4`) are modelled as naturals drawn from a
per-table counter, which captures freshness of generated ids.  Parsing a
cookie string with `uuid.UUID` (which raises `ValueError` on malformed
input) is modelled by an arbitrary function `parse : String → Option Nat`;
`none` stands for the `ValueError` branch.  Database rows are lists, and
`.query.filter_by(...).first()` is `List.find?`.
-/

namespace IvEvents

/-- Instants of UTC time, in seconds. -/
abbrev Time := Nat

/-- The fixed session validity window: `timedelta(days=7)` in seconds. -/
def sevenDaysSeconds : Nat := 7 * 24 * 3600

/-- Row of the `users` table (models.py, class User). -/
structure User where
  id : Nat
  email : String
  full_name : Option String
  google_sub : Option String
  created_at : Time
  last_login_at : Option Time
deriving DecidableEq

/-- Row of the `sessions` table (models.py, class Session). -/
structure Session where
  id : Nat
  user_id : Nat
  created_at : Time
  expires_at : Time
  revoked_at : Option Time
  ip_address : Option String
  user_agent : Option String
deriving DecidableEq

/-- The database state relevant to the subsystem, plus the id generators. -/
structure Store where
  users : List User
  sessions : List Session
  nextUserId : Nat
  nextSessionId : Nat
deriving DecidableEq

/-- Replace the first element satisfying `p` by its image under `f`; used to
model an in-place mutation of the ORM row obtained from a `first()` query,
followed by `db.session.commit()`. -/
def updateFirst {α : Type} (p : α → Bool) (f : α → α) : List α → List α
  | [] => []
  | x :: xs => if p x then f x :: xs else x :: updateFirst p f xs

/-- Model of `get_current_user` (auth_routes.py lines 45-78).  `cookie` is
`request.cookies.get("session_id")`; `none` means the cookie is absent.
Python treats an empty cookie string as absent too (`if not session_id`). -/
def getCurrentUser (st : Store) (now : Time) (parse : String → Option Nat)
    (cookie : Option String) : Option User :=
  match cookie with
  | none => none
  | some s =>
    if s = "" then none
    else
      match parse s with
      | none => none
      | some sid =>
        match st.sessions.find? (fun x => x.id == sid) with
        | none => none
        | some sess =>
          if sess.revoked_at ≠ none then none
          else if sess.expires_at ≤ now then none
          else st.users.find? (fun u => u.id == sess.user_id)

/-- Cookie attributes as passed to Flask's `set_cookie`. -/
structure SetCookie where
  name : String
  value : String
  maxAge : Nat
  httponly : Bool
  secure : Bool
  samesite : String
  path : String
deriving DecidableEq

/-- Model of `_cookie_settings` (auth_routes.py lines 24-42).  `env` is
`os.getenv("FLASK_ENV")`, `none` when the variable is unset. -/
structure CookieSettings where
  httponly : Bool
  secure : Bool
  samesite : String
  path : String
deriving DecidableEq

def cookieSettings (env : Option String) : CookieSettings :=
  { httponly := true
    secure := env ≠ some "development"
    samesite := "Lax"
    path := "/" }

/-- The observable parts of a login handler's HTTP response. -/
structure LoginResp where
  ok : Bool
  error : Option String
  status : Nat
  user_id : Option Nat
  cookie : Option SetCookie
deriving DecidableEq

/-- The observable parts of the logout handler's HTTP response. -/
structure LogoutResp where
  ok : Bool
  deleted_cookie : Bool
deriving DecidableEq

/-- Python's `str.strip()`: drop leading and trailing whitespace. -/
def pyStrip (s : String) : String :=
  ⟨((s.data.dropWhile Char.isWhitespace).reverse.dropWhile
      Char.isWhitespace).reverse⟩

/-- Python's `str.lower()`: lowercase every character. -/
def pyLower (s : String) : String :=
  ⟨s.data.map Char.toLower⟩

/-- Email normalization done by `login`: `(data.get("email") or "").strip().lower()`. -/
def normEmail (emailIn : Option String) : String :=
  pyLower (pyStrip (emailIn.getD ""))

/-- Full-name normalization done by `login`:
`(data.get("full_name") or "").strip() or None`. -/
def normFullName (fullNameIn : Option String) : Option String :=
  let f := pyStrip (fullNameIn.getD "")
  if f = "" then none else some f

/-- The find-or-create block of `login` (auth_routes.py lines 103-113): look
the user up by normalized email; create a row when absent, otherwise update
`full_name` when a differing non-empty one was supplied.  Returns the store
and the id of the resolved-or-created user. -/
def loginFindOrCreate (st : Store) (now : Time) (email : String)
    (full_name : Option String) : Store × Nat :=
  match st.users.find? (fun u => u.email == email) with
  | none =>
    let user : User :=
      { id := st.nextUserId, email := email, full_name := full_name
        google_sub := none, created_at := now, last_login_at := none }
    ({ st with users := st.users ++ [user], nextUserId := st.nextUserId + 1 },
     user.id)
  | some user =>
    let users1 :=
      match full_name with
      | some f =>
        if user.full_name ≠ some f then
          updateFirst (fun u => u.email == email)
            (fun u => { u with full_name := some f }) st.users
        else st.users
      | none => st.users
    ({ st with users := users1 }, user.id)

/-- Model of `login` (auth_routes.py lines 81-142).  `emailIn` and `fullNameIn` are the
JSON fields (absent field modelled as `none`); `ip` and `ua` are
`request.remote_addr` and the User-Agent header; `env` is `FLASK_ENV`. -/
def login (st : Store) (now : Time) (emailIn fullNameIn : Option String)
    (ip ua : Option String) (env : Option String) : Store × LoginResp :=
  let email := normEmail emailIn
  let full_name := normFullName fullNameIn
  if email = "" then
    (st, { ok := false, error := some "email_required", status := 400
           user_id := none, cookie := none })
  else
    let stUid : Store × Nat := loginFindOrCreate st now email full_name
    let st1 := stUid.1
    let uid := stUid.2
    let st2 :=
      { st1 with
        users := updateFirst (fun u => u.email == email)
          (fun u => { u with last_login_at := some now }) st1.users }
    let sess : Session :=
      { id := st2.nextSessionId, user_id := uid, created_at := now
        expires_at := now + sevenDaysSeconds, revoked_at := none
        ip_address := ip, user_agent := ua }
    let st3 :=
      { st2 with sessions := st2.sessions ++ [sess]
                 nextSessionId := st2.nextSessionId + 1 }
    (st3,
     { ok := true, error := none, status := 200, user_id := some uid
       cookie := some
         { name := "session_id", value := toString sess.id
           maxAge := 7 * 24 * 3600
           httponly := (cookieSettings env).httponly
           secure := (cookieSettings env).secure
           samesite := (cookieSettings env).samesite
           path := (cookieSettings env).path } })

/-- The mutation performed by `logout` on the first session row matching the
parsed id: set `revoked_at = utcnow()` only when it is still null. -/
def revokeIfActive (now : Time) (x : Session) : Session :=
  if x.revoked_at = none then { x with revoked_at := some now } else x

/-- Model of `logout` (auth_routes.py lines 145-169). -/
def logout (st : Store) (now : Time) (parse : String → Option Nat)
    (cookie : Option String) : Store × LogoutResp :=
  let st1 :=
    match cookie with
    | none => st
    | some s =>
      if s = "" then st
      else
        match parse s with
        | none => st
        | some sid =>
          { st with
            sessions := updateFirst (fun x => x.id == sid) (revokeIfActive now)
              st.sessions }
  (st1, { ok := true, deleted_cookie := true })

/-- Model of `login_dev` (auth_routes.py lines 198-235).  Its Session row leaves
`created_at` to the model default `utcnow`, and passes no ip or user agent. -/
def loginDev (st : Store) (now : Time) : Store × LoginResp :=
  let email := "dev@ivevents.local"
  let stUid : Store × Nat :=
    match st.users.find? (fun u => u.email == email) with
    | none =>
      let user : User :=
        { id := st.nextUserId, email := email, full_name := some "Dev User"
          google_sub := none, created_at := now, last_login_at := none }
      ({ st with users := st.users ++ [user], nextUserId := st.nextUserId + 1 },
       user.id)
    | some user => (st, user.id)
  let st1 := stUid.1
  let uid := stUid.2
  let sess : Session :=
    { id := st1.nextSessionId, user_id := uid, created_at := now
      expires_at := now + sevenDaysSeconds, revoked_at := none
      ip_address := none, user_agent := none }
  let st2 :=
    { st1 with sessions := st1.sessions ++ [sess]
               nextSessionId := st1.nextSessionId + 1 }
  (st2,
   { ok := true, error := none, status := 200, user_id := some uid
     cookie := some
       { name := "session_id", value := toString sess.id
         maxAge := 60 * 60 * 24 * 7
         httponly := true, secure := false, samesite := "Lax", path := "/" } })

/-- The operations of the subsystem, each tagged with the instant at which the
request is served and its request data. -/
inductive Op where
  | login (now : Time) (emailIn fullNameIn ip ua : Option String)
  | loginDev (now : Time)
  | logout (now : Time) (cookie : Option String)
  | resolve (now : Time) (cookie : Option String)

/-- State transition of one operation.  `get_current_user` performs only
reads, so `resolve` leaves the store as it is. -/
def step (env : Option String) (parse : String → Option Nat) (st : Store) :
    Op → Store
  | .login now e f i u => (login st now e f i u env).1
  | .loginDev now => (loginDev st now).1
  | .logout now c => (logout st now parse c).1
  | .resolve _ _ => st

/-- Run a sequence of operations from a store. -/
def run (env : Option String) (parse : String → Option Nat) (st : Store)
    (ops : List Op) : Store :=
  ops.foldl (step env parse) st

/-! Concrete fixtures used by witness theorems. -/

/-- A concrete user row. -/
def U0 : User :=
  { id := 1, email := "a@b.com", full_name := none, google_sub := none
    created_at := 0, last_login_at := none }

/-- A session of `U0` that is active until instant 100. -/
def S0 : Session :=
  { id := 1, user_id := 1, created_at := 0, expires_at := 100
    revoked_at := none, ip_address := none, user_agent := none }

/-- A session of `U0` revoked at instant 5. -/
def S1 : Session :=
  { id := 2, user_id := 1, created_at := 0, expires_at := 100
    revoked_at := some 5, ip_address := none, user_agent := none }

/-- A session of `U0` that expired at instant 10. -/
def S2 : Session :=
  { id := 3, user_id := 1, created_at := 0, expires_at := 10
    revoked_at := none, ip_address := none, user_agent := none }

/-- A concrete store holding `U0` and its three sessions. -/
def st0 : Store :=
  { users := [U0], sessions := [S0, S1, S2], nextUserId := 2, nextSessionId := 4 }

/-- A concrete stand-in for `uuid.UUID` parsing over the ids of `st0`. -/
def parse0 : String → Option Nat := fun s =>
  if s = "1" then some 1
  else if s = "2" then some 2
  else if s = "3" then some 3
  else none

/-- A concrete sequence of further operations of the subsystem. -/
def ops0 : List Op :=
  [Op.logout 20 (some "2"), Op.loginDev 21,
   Op.login 22 (some "x@y.z") none none none, Op.resolve 23 (some "2"),
   Op.logout 24 (some "2")]

/-! Helper lemmas about `List.find?`, `List.countP` and `updateFirst`. -/

theorem find?_decomp {α : Type} {p : α → Bool} {l : List α} {u : α}
    (h : l.find? p = some u) :
    ∃ l1 l2, l = l1 ++ u :: l2 ∧ (∀ x ∈ l1, p x = false) ∧ p u = true := by
  induction l with
  | nil => simp [List.find?] at h
  | cons x xs ih =>
    by_cases hpx : p x = true
    · rw [List.find?_cons_of_pos _ hpx] at h
      exact ⟨[], xs, by simp [← Option.some_inj.mp h], by simp, by
        rw [← Option.some_inj.mp h]; exact hpx⟩
    · rw [List.find?_cons_of_neg _ hpx] at h
      obtain ⟨l1, l2, hl, h1, h2⟩ := ih h
      exact ⟨x :: l1, l2, by simp [hl], by
        intro y hy
        rcases List.mem_cons.mp hy with rfl | hy
        · exact Bool.eq_false_iff.mpr hpx
        · exact h1 y hy, h2⟩

theorem find?_of_decomp {α : Type} {p : α → Bool} {a b : List α} {u : α}
    (h1 : ∀ x ∈ a, p x = false) (h2 : p u = true) :
    (a ++ u :: b).find? p = some u := by
  induction a with
  | nil => simpa using List.find?_cons_of_pos _ h2
  | cons x xs ih =>
    have hx : p x = false := h1 x (List.mem_cons_self x xs)
    simp only [List.cons_append]
    rw [List.find?_cons_of_neg _ (by simp [hx])]
    exact ih fun y hy => h1 y (List.mem_cons_of_mem x hy)

theorem updateFirst_of_decomp {α : Type} {p : α → Bool} {f : α → α}
    {a b : List α} {u : α} (h1 : ∀ x ∈ a, p x = false) (h2 : p u = true) :
    updateFirst p f (a ++ u :: b) = a ++ f u :: b := by
  induction a with
  | nil => simp [updateFirst, h2]
  | cons x xs ih =>
    have hx : p x = false := h1 x (List.mem_cons_self x xs)
    simp only [List.cons_append, updateFirst, hx]
    simp [ih fun y hy => h1 y (List.mem_cons_of_mem x hy)]

theorem updateFirst_no_match {α : Type} {p : α → Bool} {f : α → α} {l : List α}
    (h : ∀ x ∈ l, p x = false) : updateFirst p f l = l := by
  induction l with
  | nil => rfl
  | cons x xs ih =>
    have hx : p x = false := h x (List.mem_cons_self x xs)
    simp only [updateFirst, hx]
    simp [ih fun y hy => h y (List.mem_cons_of_mem x hy)]

theorem find?_append_of_some {α : Type} {p : α → Bool} {l1 l2 : List α} {u : α}
    (h : l1.find? p = some u) : (l1 ++ l2).find? p = some u := by
  induction l1 with
  | nil => simp [List.find?] at h
  | cons x xs ih =>
    by_cases hpx : p x = true
    · rw [List.find?_cons_of_pos _ hpx] at h
      simp only [List.cons_append]
      rw [List.find?_cons_of_pos _ hpx]
      exact h
    · rw [List.find?_cons_of_neg _ hpx] at h
      simp only [List.cons_append]
      rw [List.find?_cons_of_neg _ hpx]
      exact ih h

theorem countP_updateFirst {α : Type} {p q : α → Bool} {f : α → α} {l : List α}
    (hq : ∀ x, q (f x) = q x) :
    (updateFirst p f l).countP q = l.countP q := by
  induction l with
  | nil => rfl
  | cons x xs ih =>
    by_cases hpx : p x = true
    · simp [updateFirst, hpx, List.countP_cons, hq x]
    · simp [updateFirst, hpx, List.countP_cons, ih]

theorem find?_updateFirst_same {α : Type} {p : α → Bool} {f : α → α} {l : List α}
    (hp : ∀ x, p (f x) = p x) :
    (updateFirst p f l).find? p = (l.find? p).map f := by
  induction l with
  | nil => rfl
  | cons x xs ih =>
    by_cases hpx : p x = true
    · simp only [updateFirst, hpx, if_true]
      rw [List.find?_cons_of_pos _ (by rw [hp x]; exact hpx),
          List.find?_cons_of_pos _ hpx]
      rfl
    · simp only [updateFirst, hpx]
      simp only [Bool.false_eq_true, if_false]
      rw [List.find?_cons_of_neg _ hpx, List.find?_cons_of_neg _ hpx]
      exact ih

theorem find?_updateFirst_fixed {α : Type} {p p2 : α → Bool} {f : α → α}
    {l : List α} {u : α} (hp : ∀ x, p (f x) = p x)
    (h : l.find? p = some u) (hfu : f u = u) :
    (updateFirst p2 f l).find? p = some u := by
  induction l with
  | nil => simp [List.find?] at h
  | cons x xs ih =>
    by_cases hpx : p x = true
    · rw [List.find?_cons_of_pos _ hpx] at h
      have hxu : x = u := Option.some_inj.mp h
      by_cases hp2 : p2 x = true
      · simp only [updateFirst, hp2, if_true]
        rw [List.find?_cons_of_pos _ (by rw [hp x]; exact hpx)]
        rw [hxu, hfu]
      · simp only [updateFirst, hp2]
        simp only [Bool.false_eq_true, if_false]
        rw [List.find?_cons_of_pos _ hpx, hxu]
    · rw [List.find?_cons_of_neg _ hpx] at h
      by_cases hp2 : p2 x = true
      · simp only [updateFirst, hp2, if_true]
        rw [List.find?_cons_of_neg _ (by rw [hp x]; exact hpx)]
        exact h
      · simp only [updateFirst, hp2]
        simp only [Bool.false_eq_true, if_false]
        rw [List.find?_cons_of_neg _ hpx]
        exact ih h

theorem countP_eq_zero_of_find?_none {α : Type} {p : α → Bool} {l : List α}
    (h : l.find? p = none) : l.countP p = 0 := by
  rw [List.countP_eq_zero]
  intro a ha
  exact List.find?_eq_none.mp h a ha

theorem countP_pos_of_find?_some {α : Type} {p : α → Bool} {l : List α} {u : α}
    (h : l.find? p = some u) : 0 < l.countP p := by
  rw [List.countP_pos_iff]
  exact ⟨u, List.mem_of_find?_eq_some h, List.find?_some h⟩

/-! Shape lemmas about the login handlers. -/

theorem loginFindOrCreate_sessions (st : Store) (now : Time) (email : String)
    (fn : Option String) :
    (loginFindOrCreate st now email fn).1.sessions = st.sessions ∧
    (loginFindOrCreate st now email fn).1.nextSessionId = st.nextSessionId := by
  unfold loginFindOrCreate
  cases st.users.find? (fun u => u.email == email) <;> simp

theorem loginFindOrCreate_countP (st : Store) (now : Time) (email : String)
    (fn : Option String) :
    (loginFindOrCreate st now email fn).1.users.countP
        (fun u => u.email == email)
      = max (st.users.countP (fun u => u.email == email)) 1 := by
  unfold loginFindOrCreate
  cases hfind : st.users.find? (fun u => u.email == email) with
  | none =>
    have h0 : st.users.countP (fun u => u.email == email) = 0 :=
      countP_eq_zero_of_find?_none hfind
    simp [List.countP_append, h0, List.countP_cons]
  | some user =>
    have hpos : 0 < st.users.countP (fun u => u.email == email) :=
      countP_pos_of_find?_some hfind
    have hmax : max (st.users.countP (fun u => u.email == email)) 1
        = st.users.countP (fun u => u.email == email) :=
      Nat.max_eq_left hpos
    cases fn with
    | none => simpa using hmax.symm
    | some f =>
      by_cases hne : user.full_name = some f
      · simp [hne]
        simpa using hmax.symm
      · simp only [hne, ne_eq, not_false_iff, if_true]
        have hcu := countP_updateFirst
          (p := fun u => u.email == email) (q := fun u => u.email == email)
          (f := fun u => { u with full_name := some f }) (l := st.users)
          (fun x => rfl)
        rw [hcu]
        simpa using hmax.symm

theorem login_shape (st : Store) (now : Time)
    (emailIn fullNameIn ip ua env : Option String) (h : normEmail emailIn ≠ "") :
    ∃ uid,
      (login st now emailIn fullNameIn ip ua env).1.users.countP
          (fun u => u.email == normEmail emailIn)
        = max (st.users.countP (fun u => u.email == normEmail emailIn)) 1 ∧
      (login st now emailIn fullNameIn ip ua env).1.sessions
        = st.sessions ++
          [{ id := st.nextSessionId, user_id := uid, created_at := now
             expires_at := now + sevenDaysSeconds, revoked_at := none
             ip_address := ip, user_agent := ua }] ∧
      (login st now emailIn fullNameIn ip ua env).1.nextSessionId
        = st.nextSessionId + 1 ∧
      (login st now emailIn fullNameIn ip ua env).2
        = { ok := true, error := none, status := 200, user_id := some uid
            cookie := some
              { name := "session_id", value := toString st.nextSessionId
                maxAge := 7 * 24 * 3600
                httponly := true
                secure := (cookieSettings env).secure
                samesite := "Lax", path := "/" } } := by
  obtain ⟨hsess, hnext⟩ :=
    loginFindOrCreate_sessions st now (normEmail emailIn) (normFullName fullNameIn)
  refine ⟨(loginFindOrCreate st now (normEmail emailIn) (normFullName fullNameIn)).2,
    ?_, ?_, ?_, ?_⟩ <;>
    simp only [login, if_neg h, cookieSettings]
  · have hcu := countP_updateFirst
      (p := fun u => u.email == normEmail emailIn)
      (q := fun u => u.email == normEmail emailIn)
      (f := fun u => { u with last_login_at := some now })
      (l := (loginFindOrCreate st now (normEmail emailIn)
        (normFullName fullNameIn)).1.users)
      (fun x => rfl)
    rw [hcu]
    exact loginFindOrCreate_countP st now (normEmail emailIn) (normFullName fullNameIn)
  · simp [hsess, hnext]
  · simp [hnext]
  · simp [hnext]

theorem loginDev_shape (st : Store) (now : Time) :
    ∃ uid,
      (loginDev st now).1.sessions
        = st.sessions ++
          [{ id := st.nextSessionId, user_id := uid, created_at := now
             expires_at := now + sevenDaysSeconds, revoked_at := none
             ip_address := none, user_agent := none }] ∧
      (loginDev st now).2.cookie
        = some
          { name := "session_id", value := toString st.nextSessionId
            maxAge := 60 * 60 * 24 * 7
            httponly := true, secure := false, samesite := "Lax", path := "/" } := by
  unfold loginDev
  cases hfind : st.users.find? (fun u => u.email == "dev@ivevents.local") with
  | none => simp [hfind]
  | some user => simp [hfind]

/-- C1: for a stored session S whose owner exists in the users table, resolving
a token that parses to S's id returns the owning user exactly when S is not
revoked and not yet expired, and Anonymous (none) in every other case. -/
theorem C1_resolve_iff_valid (st : Store) (now : Time)
    (parse : String → Option Nat) (s : String) (S : Session) (U : User)
    (hs : s ≠ "") (hparse : parse s = some S.id)
    (hfind : st.sessions.find? (fun x => x.id == S.id) = some S)
    (hu : st.users.find? (fun u => u.id == S.user_id) = some U) :
    getCurrentUser st now parse (some s)
      = if S.revoked_at = none ∧ now < S.expires_at then some U else none := by
  simp only [getCurrentUser, hparse, hfind, if_neg hs]
  by_cases hr : S.revoked_at = none
  · by_cases he : S.expires_at ≤ now
    · rw [if_neg (by simp [hr]), if_pos he,
        if_neg (fun hc => (Nat.not_lt.mpr he) hc.2)]
    · rw [if_neg (by simp [hr]), if_neg he, hu,
        if_pos ⟨hr, Nat.lt_of_not_le he⟩]
  · rw [if_pos (by simp [hr]), if_neg (by tauto)]

/-- Witness for C1 on the concrete store `st0` at instant 50. -/
theorem C1_resolve_iff_valid_witness :
    ("1" ≠ "") ∧ parse0 "1" = some S0.id ∧
    st0.sessions.find? (fun x => x.id == S0.id) = some S0 ∧
    st0.users.find? (fun u => u.id == S0.user_id) = some U0 ∧
    getCurrentUser st0 50 parse0 (some "1") = some U0 := by
  refine ⟨by decide, by decide, by decide, by decide, ?_⟩
  rw [C1_resolve_iff_valid st0 50 parse0 "1" S0 U0 (by decide) (by decide)
    (by decide) (by decide)]
  decide

/-- C2: a token that does not parse in the store's id format, or parses but
matches no stored session row, always resolves to Anonymous; the resolver is
a total function, so no input raises. -/
theorem C2_malformed_or_unknown_anonymous (st : Store) (now : Time)
    (parse : String → Option Nat) (s : String)
    (h : parse s = none ∨ ∃ sid, parse s = some sid ∧
        st.sessions.find? (fun x => x.id == sid) = none) :
    getCurrentUser st now parse (some s) = none := by
  simp only [getCurrentUser]
  by_cases hs : s = ""
  · rw [if_pos hs]
  · rw [if_neg hs]
    rcases h with h | ⟨sid, hp, hfind⟩
    · simp [h]
    · simp [hp, hfind]

/-- Witness for C2: a malformed token and an unknown-but-well-formed token on
the concrete store `st0`. -/
theorem C2_malformed_or_unknown_anonymous_witness :
    (parse0 "not-a-valid-id-format" = none ∧
      getCurrentUser st0 50 parse0 (some "not-a-valid-id-format") = none) ∧
    (parse0 "2" = some 2 ∧
      getCurrentUser (Store.mk [U0] [S0] 2 4) 50 parse0 (some "2") = none) := by
  refine ⟨⟨by decide, ?_⟩, ⟨by decide, ?_⟩⟩
  · exact C2_malformed_or_unknown_anonymous st0 50 parse0 "not-a-valid-id-format"
      (Or.inl (by decide))
  · exact C2_malformed_or_unknown_anonymous (Store.mk [U0] [S0] 2 4) 50 parse0 "2"
      (Or.inr ⟨2, by decide, by decide⟩)

/-- Any single operation keeps a revoked session row in place, unchanged. -/
theorem step_preserves_find_revoked (env : Option String)
    (parse : String → Option Nat) (st : Store) (op : Op) (sid : Nat)
    (S : Session) (hfind : st.sessions.find? (fun x => x.id == sid) = some S)
    (hrev : S.revoked_at ≠ none) :
    (step env parse st op).sessions.find? (fun x => x.id == sid) = some S := by
  cases op with
  | login now e f i u =>
    by_cases h : normEmail e = ""
    · simp [step, login, h, hfind]
    · obtain ⟨uid, _, hsess, _, _⟩ := login_shape st now e f i u env h
      simp only [step]
      rw [hsess]
      exact find?_append_of_some hfind
  | loginDev now =>
    obtain ⟨uid, hsess, _⟩ := loginDev_shape st now
    simp only [step]
    rw [hsess]
    exact find?_append_of_some hfind
  | logout now c =>
    simp only [step, logout]
    cases c with
    | none => exact hfind
    | some s =>
      by_cases hs : s = ""
      · simp [hs, hfind]
      · simp only [if_neg hs]
        cases hp : parse s with
        | none => simp [hp, hfind]
        | some sid2 =>
          simp only [hp]
          refine find?_updateFirst_fixed (fun x => ?_) hfind ?_
          · unfold revokeIfActive
            split <;> rfl
          · unfold revokeIfActive
            rw [if_neg hrev]
  | resolve now c => exact hfind

/-- A run of operations keeps a revoked session row in place, unchanged. -/
theorem run_preserves_find_revoked (env : Option String)
    (parse : String → Option Nat) (sid : Nat) (S : Session)
    (hrev : S.revoked_at ≠ none) :
    ∀ (ops : List Op) (st : Store),
      st.sessions.find? (fun x => x.id == sid) = some S →
      (run env parse st ops).sessions.find? (fun x => x.id == sid) = some S := by
  intro ops
  induction ops with
  | nil => intro st hfind; exact hfind
  | cons op rest ih =>
    intro st hfind
    exact ih _ (step_preserves_find_revoked env parse st op sid S hfind hrev)

/-- C3: once a session is revoked, no sequence of further login, loginDev,
logout or resolve operations ever clears `revoked_at`, and resolving that
session's token afterwards always returns Anonymous. -/
theorem C3_revocation_monotonic (env : Option String)
    (parse : String → Option Nat) (st : Store) (sid : Nat) (S : Session)
    (t : Time) (hfind : st.sessions.find? (fun x => x.id == sid) = some S)
    (hrev : S.revoked_at = some t) (ops : List Op) :
    (run env parse st ops).sessions.find? (fun x => x.id == sid) = some S ∧
    ∀ now2 s, parse s = some sid →
      getCurrentUser (run env parse st ops) now2 parse (some s) = none := by
  have hne : S.revoked_at ≠ none := by simp [hrev]
  have hmain := run_preserves_find_revoked env parse sid S hne ops st hfind
  refine ⟨hmain, ?_⟩
  intro now2 s hp
  simp only [getCurrentUser]
  by_cases hs : s = ""
  · rw [if_pos hs]
  · rw [if_neg hs]
    simp [hp, hmain, hrev]

/-- Witness for C3: the revoked session `S1` of `st0` survives the concrete
run `ops0` untouched and still resolves to Anonymous. -/
theorem C3_revocation_monotonic_witness :
    st0.sessions.find? (fun x => x.id == 2) = some S1 ∧
    S1.revoked_at = some 5 ∧
    (run none parse0 st0 ops0).sessions.find? (fun x => x.id == 2) = some S1 ∧
    getCurrentUser (run none parse0 st0 ops0) 30 parse0 (some "2") = none := by
  have h := C3_revocation_monotonic none parse0 st0 2 S1 5 (by decide)
    (by decide) ops0
  exact ⟨by decide, by decide, h.1, h.2 30 "2" (by decide)⟩

/-- C4: logout always returns success; the store changes only when the cookie
is present, parseable, and names a stored session with `revoked_at` null, and
then only that one row changes, by having `revoked_at` set to now. -/
theorem C4_logout_idempotent (st : Store) (now : Time)
    (parse : String → Option Nat) (cookie : Option String) :
    (logout st now parse cookie).2.ok = true ∧
    (cookie = none → (logout st now parse cookie).1 = st) ∧
    (∀ s, cookie = some s → s = "" → (logout st now parse cookie).1 = st) ∧
    (∀ s, cookie = some s → parse s = none →
      (logout st now parse cookie).1 = st) ∧
    (∀ s sid, cookie = some s → parse s = some sid →
      st.sessions.find? (fun x => x.id == sid) = none →
      (logout st now parse cookie).1 = st) ∧
    (∀ s sid S, cookie = some s → parse s = some sid →
      st.sessions.find? (fun x => x.id == sid) = some S → S.revoked_at ≠ none →
      (logout st now parse cookie).1 = st) ∧
    (∀ s sid S, cookie = some s → s ≠ "" → parse s = some sid →
      st.sessions.find? (fun x => x.id == sid) = some S → S.revoked_at = none →
      (logout st now parse cookie).1.users = st.users ∧
      ∃ l1 l2, st.sessions = l1 ++ S :: l2 ∧
        (logout st now parse cookie).1.sessions
          = l1 ++ { S with revoked_at := some now } :: l2 ∧
        ∀ x ∈ l1, (x.id == sid) = false) := by
  refine ⟨rfl, ?_, ?_, ?_, ?_, ?_, ?_⟩
  · rintro rfl; rfl
  · rintro s rfl rfl; rfl
  · rintro s rfl hp
    simp only [logout]
    by_cases hs : s = ""
    · simp [hs]
    · simp [hs, hp]
  · rintro s sid rfl hp hfind
    simp only [logout]
    by_cases hs : s = ""
    · simp [hs]
    · have hnone := updateFirst_no_match (f := revokeIfActive now)
        (fun x hx => Bool.eq_false_iff.mpr (List.find?_eq_none.mp hfind x hx))
      simp [hs, hp, hnone]
  · rintro s sid S rfl hp hfind hrev
    simp only [logout]
    by_cases hs : s = ""
    · simp [hs]
    · have hfix : revokeIfActive now S = S := by
        unfold revokeIfActive; rw [if_neg hrev]
      obtain ⟨l1, l2, hl, h1, h2⟩ := find?_decomp hfind
      have hupd := updateFirst_of_decomp (f := revokeIfActive now) (b := l2) h1 h2
      simp only [if_neg hs, hp]
      rw [hl, hupd, hfix, ← hl]
  · rintro s sid S rfl hs hp hfind hrev
    simp only [logout]
    obtain ⟨l1, l2, hl, h1, h2⟩ := find?_decomp hfind
    have hupd := updateFirst_of_decomp (f := revokeIfActive now) (b := l2) h1 h2
    have hact : revokeIfActive now S = { S with revoked_at := some now } := by
      unfold revokeIfActive; rw [if_pos hrev]
    refine ⟨by simp [hs, hp], l1, l2, hl, ?_, fun x hx => ?_⟩
    · simp only [if_neg hs, hp]
      rw [hl, hupd, hact]
    · exact h1 x hx

/-- Witness for C4 on the active session `S0` of `st0`: logout succeeds and
revokes exactly that row. -/
theorem C4_logout_idempotent_witness :
    (logout st0 50 parse0 (some "1")).2.ok = true ∧
    ∃ l1 l2, st0.sessions = l1 ++ S0 :: l2 ∧
      (logout st0 50 parse0 (some "1")).1.sessions
        = l1 ++ { S0 with revoked_at := some 50 } :: l2 ∧
      ∀ x ∈ l1, (x.id == 1) = false := by
  have h := C4_logout_idempotent st0 50 parse0 (some "1")
  have h7 := h.2.2.2.2.2.2 "1" 1 S0 rfl (by decide) (by decide) (by decide)
    (by decide)
  exact ⟨h.1, h7.2⟩

/-- C5: a session created by `login` or by `login_dev` has
`created_at = now`, `expires_at = now + 7 days`, hence
`expires_at = created_at + 7 days`, and `revoked_at = null`. -/
theorem C5_session_creation_fields (st : Store) (now : Time)
    (emailIn fullNameIn ip ua env : Option String)
    (h : normEmail emailIn ≠ "") :
    (∃ sess : Session,
      (login st now emailIn fullNameIn ip ua env).1.sessions
        = st.sessions ++ [sess] ∧
      sess.created_at = now ∧ sess.expires_at = now + sevenDaysSeconds ∧
      sess.expires_at = sess.created_at + sevenDaysSeconds ∧
      sess.revoked_at = none) ∧
    (∃ sess : Session,
      (loginDev st now).1.sessions = st.sessions ++ [sess] ∧
      sess.created_at = now ∧ sess.expires_at = now + sevenDaysSeconds ∧
      sess.expires_at = sess.created_at + sevenDaysSeconds ∧
      sess.revoked_at = none) := by
  constructor
  · obtain ⟨uid, _, hsess, _, _⟩ := login_shape st now emailIn fullNameIn ip ua env h
    exact ⟨_, hsess, rfl, rfl, rfl, rfl⟩
  · obtain ⟨uid, hsess, _⟩ := loginDev_shape st now
    exact ⟨_, hsess, rfl, rfl, rfl, rfl⟩

/-- Witness for C5 at a concrete login on `st0` at instant 100. -/
theorem C5_session_creation_fields_witness :
    normEmail (some "a@b.com") ≠ "" ∧
    (∃ sess : Session,
      (login st0 100 (some "a@b.com") none none none none).1.sessions
        = st0.sessions ++ [sess] ∧
      sess.created_at = 100 ∧ sess.expires_at = 100 + sevenDaysSeconds ∧
      sess.expires_at = sess.created_at + sevenDaysSeconds ∧
      sess.revoked_at = none) :=
  ⟨by decide,
   (C5_session_creation_fields st0 100 (some "a@b.com") none none none none
     (by decide)).1⟩

/-- C7: resolution never writes to the store, and resolving an expired,
unrevoked session returns Anonymous while the row stays present with
`revoked_at` still null. -/
theorem C7_resolution_no_mutation (env : Option String) (st : Store)
    (now : Time) (parse : String → Option Nat) (s : String) (sid : Nat)
    (S : Session) (hparse : parse s = some sid)
    (hfind : st.sessions.find? (fun x => x.id == sid) = some S)
    (hrev : S.revoked_at = none) (hexp : S.expires_at ≤ now) :
    (∀ c nowc, step env parse st (Op.resolve nowc c) = st) ∧
    getCurrentUser st now parse (some s) = none ∧
    st.sessions.find? (fun x => x.id == sid) = some S ∧
    S.revoked_at = none := by
  refine ⟨fun c nowc => rfl, ?_, hfind, hrev⟩
  simp only [getCurrentUser]
  by_cases hs : s = ""
  · rw [if_pos hs]
  · rw [if_neg hs]
    simp [hparse, hfind, hrev, hexp]

/-- Witness for C7 on the expired session `S2` of `st0` at instant 50. -/
theorem C7_resolution_no_mutation_witness :
    parse0 "3" = some 3 ∧
    st0.sessions.find? (fun x => x.id == 3) = some S2 ∧
    S2.revoked_at = none ∧ S2.expires_at ≤ 50 ∧
    getCurrentUser st0 50 parse0 (some "3") = none ∧
    step none parse0 st0 (Op.resolve 50 (some "3")) = st0 := by
  have h := C7_resolution_no_mutation none st0 50 parse0 "3" 3 S2 (by decide)
    (by decide) (by decide) (by decide)
  exact ⟨by decide, by decide, by decide, by decide, h.2.1, h.1 (some "3") 50⟩

/-- C6: two logins with the same email leave at most one user row with the
normalized email (exactly one, given the unique-email invariant held before),
while appending two distinct session rows, each with its own expiry and
`revoked_at` null. -/
theorem C6_login_idempotent_identity (st : Store) (now1 now2 : Time)
    (emailIn fn1 fn2 ip1 ua1 ip2 ua2 env : Option String)
    (hne : normEmail emailIn ≠ "")
    (huniq : st.users.countP (fun u => u.email == normEmail emailIn) ≤ 1) :
    (login (login st now1 emailIn fn1 ip1 ua1 env).1 now2 emailIn fn2 ip2 ua2
        env).1.users.countP (fun u => u.email == normEmail emailIn) = 1 ∧
    ∃ s1 s2 : Session,
      (login (login st now1 emailIn fn1 ip1 ua1 env).1 now2 emailIn fn2 ip2 ua2
          env).1.sessions = st.sessions ++ [s1, s2] ∧
      s1.id ≠ s2.id ∧ s1.revoked_at = none ∧ s2.revoked_at = none ∧
      s1.expires_at = now1 + sevenDaysSeconds ∧
      s2.expires_at = now2 + sevenDaysSeconds := by
  obtain ⟨uid1, hc1, hs1, hn1, _⟩ := login_shape st now1 emailIn fn1 ip1 ua1 env hne
  obtain ⟨uid2, hc2, hs2, hn2, _⟩ :=
    login_shape (login st now1 emailIn fn1 ip1 ua1 env).1 now2 emailIn fn2 ip2
      ua2 env hne
  constructor
  · rw [hc2, hc1]
    omega
  · refine ⟨{ id := st.nextSessionId, user_id := uid1, created_at := now1,
               expires_at := now1 + sevenDaysSeconds, revoked_at := none,
               ip_address := ip1, user_agent := ua1 },
             { id := (login st now1 emailIn fn1 ip1 ua1 env).1.nextSessionId,
               user_id := uid2, created_at := now2,
               expires_at := now2 + sevenDaysSeconds, revoked_at := none,
               ip_address := ip2, user_agent := ua2 },
             ?_, ?_, rfl, rfl, rfl, rfl⟩
    · rw [hs2, hs1]
      simp [List.append_assoc]
    · show st.nextSessionId ≠
        (login st now1 emailIn fn1 ip1 ua1 env).1.nextSessionId
      rw [hn1]
      omega

/-- Witness for C6: logging in twice with the email of `st0`'s sole user. -/
theorem C6_login_idempotent_identity_witness :
    normEmail (some "a@b.com") ≠ "" ∧
    st0.users.countP (fun u => u.email == normEmail (some "a@b.com")) ≤ 1 ∧
    (login (login st0 100 (some "a@b.com") none none none none).1 200
        (some "a@b.com") none none none none).1.users.countP
      (fun u => u.email == normEmail (some "a@b.com")) = 1 := by
  have h := C6_login_idempotent_identity st0 100 200 (some "a@b.com") none none
    none none none none none (by decide) (by decide)
  exact ⟨by decide, by decide, h.1⟩

/-- The find-or-create block resolves to a user row that is present as the
first row with the normalized email, carries that email, and whose id is the
returned one. -/
theorem loginFindOrCreate_user (st : Store) (now : Time) (email : String)
    (fn : Option String) :
    ∃ u : User,
      (loginFindOrCreate st now email fn).1.users.find?
          (fun x => x.email == email) = some u ∧
      u.id = (loginFindOrCreate st now email fn).2 ∧ u.email = email := by
  unfold loginFindOrCreate
  cases hfind : st.users.find? (fun u => u.email == email) with
  | none =>
    have h1 : ∀ x ∈ st.users, (x.email == email) = false :=
      fun x hx => Bool.eq_false_iff.mpr (List.find?_eq_none.mp hfind x hx)
    refine ⟨{ id := st.nextUserId, email := email, full_name := fn,
              google_sub := none, created_at := now, last_login_at := none },
            ?_, rfl, rfl⟩
    simpa using find?_of_decomp (b := ([] : List User))
      (u := { id := st.nextUserId, email := email, full_name := fn,
              google_sub := none, created_at := now, last_login_at := none })
      h1 (by simp)
  | some user =>
    have hemail : user.email = email := by
      simpa using List.find?_some hfind
    cases fn with
    | none => exact ⟨user, by simpa using hfind, rfl, hemail⟩
    | some f =>
      by_cases hne : user.full_name = some f
      · refine ⟨user, ?_, rfl, hemail⟩
        simp [hne, hfind]
      · have hmap := find?_updateFirst_same
          (p := fun u => u.email == email)
          (f := fun u => { u with full_name := some f }) (l := st.users)
          (fun x => rfl)
        refine ⟨{ user with full_name := some f }, ?_, rfl, hemail⟩
        simp only [hne, ne_eq, not_false_iff, if_true]
        rw [hmap, hfind]
        rfl

/-- After a successful login, the response's user id names a stored row whose
email is the normalized input email and whose `last_login_at` was set to now. -/
theorem login_user (st : Store) (now : Time)
    (emailIn fullNameIn ip ua env : Option String)
    (h : normEmail emailIn ≠ "") :
    ∃ u : User,
      (login st now emailIn fullNameIn ip ua env).1.users.find?
          (fun x => x.email == normEmail emailIn) = some u ∧
      (login st now emailIn fullNameIn ip ua env).2.user_id = some u.id ∧
      u.email = normEmail emailIn ∧ u.last_login_at = some now := by
  obtain ⟨u0, hfind0, hid0, hemail0⟩ :=
    loginFindOrCreate_user st now (normEmail emailIn) (normFullName fullNameIn)
  have hmap := find?_updateFirst_same
    (p := fun x => x.email == normEmail emailIn)
    (f := fun x => { x with last_login_at := some now })
    (l := (loginFindOrCreate st now (normEmail emailIn)
      (normFullName fullNameIn)).1.users)
    (fun x => rfl)
  refine ⟨{ u0 with last_login_at := some now }, ?_, ?_, hemail0, rfl⟩
  · simp only [login, if_neg h]
    rw [hmap, hfind0]
    rfl
  · simp only [login, if_neg h]
    simp [hid0]

/-- C9: the login handler rejects an email that is empty after normalization
with the stable code email_required and changes nothing; otherwise the
resolved-or-created user row stores exactly the trimmed, lowercased email. -/
theorem C9_email_normalized_or_required (st : Store) (now : Time) (E : String)
    (fullNameIn ip ua env : Option String) :
    (pyLower (pyStrip E) = "" →
      login st now (some E) fullNameIn ip ua env
        = (st, { ok := false, error := some "email_required", status := 400
                 user_id := none, cookie := none })) ∧
    (pyLower (pyStrip E) ≠ "" →
      ∃ u : User,
        (login st now (some E) fullNameIn ip ua env).2.user_id = some u.id ∧
        u ∈ (login st now (some E) fullNameIn ip ua env).1.users ∧
        u.email = pyLower (pyStrip E)) := by
  constructor
  · intro h
    have hE : normEmail (some E) = "" := h
    simp [login, hE]
  · intro h
    obtain ⟨u, hfind, hid, hemail, _⟩ :=
      login_user st now (some E) fullNameIn ip ua env h
    exact ⟨u, hid, List.mem_of_find?_eq_some hfind, hemail⟩

/-- Witness for C9: an all-whitespace email is rejected; a mixed-case padded
email is stored trimmed and lowercased. -/
theorem C9_email_normalized_or_required_witness :
    (pyLower (pyStrip "   ") = "" ∧
      login st0 100 (some "   ") none none none none
        = (st0, { ok := false, error := some "email_required", status := 400
                  user_id := none, cookie := none })) ∧
    (pyLower (pyStrip "  A@B.Com ") ≠ "" ∧
      ∃ u : User,
        (login st0 100 (some "  A@B.Com ") none none none none).2.user_id
          = some u.id ∧
        u ∈ (login st0 100 (some "  A@B.Com ") none none none none).1.users ∧
        u.email = pyLower (pyStrip "  A@B.Com ")) := by
  constructor
  · exact ⟨by decide,
      (C9_email_normalized_or_required st0 100 "   " none none none none).1
        (by decide)⟩
  · exact ⟨by decide,
      (C9_email_normalized_or_required st0 100 "  A@B.Com " none none none
        none).2 (by decide)⟩

/-- C10: logging in as an existing user with a differing non-empty full name
overwrites only that user's `full_name` (and `last_login_at`); every other
field of the row, and every other row, is unchanged. -/
theorem C10_full_name_overwrite (st : Store) (now : Time) (E f : String)
    (ip ua env : Option String) (u : User)
    (hE : pyLower (pyStrip E) ≠ "")
    (hfound : st.users.find? (fun x => x.email == pyLower (pyStrip E)) = some u)
    (hf : pyStrip f ≠ "")
    (hdiff : u.full_name ≠ some (pyStrip f)) :
    ∃ l1 l2,
      st.users = l1 ++ u :: l2 ∧
      (login st now (some E) (some f) ip ua env).1.users
        = l1 ++ { u with full_name := some (pyStrip f),
                         last_login_at := some now } :: l2 := by
  have hE' : normEmail (some E) = pyLower (pyStrip E) := rfl
  have hfn : normFullName (some f) = some (pyStrip f) := by
    simp [normFullName, hf]
  obtain ⟨l1, l2, hl, h1, h2⟩ := find?_decomp hfound
  refine ⟨l1, l2, hl, ?_⟩
  simp only [login, hE', if_neg hE, loginFindOrCreate, hfound, hfn]
  rw [if_pos hdiff]
  have hupd1 := updateFirst_of_decomp
    (f := fun x => { x with full_name := some (pyStrip f) }) (b := l2) h1 h2
  have hupd2 := updateFirst_of_decomp
    (f := fun x => { x with last_login_at := some now }) (b := l2) h1
    (show (({ u with full_name := some (pyStrip f) } : User).email
      == pyLower (pyStrip E)) = true from h2)
  simp only [hl, hupd1, hupd2]

/-- Witness for C10: a login for U0 with a new display name rewrites exactly
U0's row. -/
theorem C10_full_name_overwrite_witness :
    pyLower (pyStrip "a@b.com") ≠ "" ∧
    st0.users.find? (fun x => x.email == pyLower (pyStrip "a@b.com")) = some U0 ∧
    pyStrip " New Name " ≠ "" ∧
    U0.full_name ≠ some (pyStrip " New Name ") ∧
    ∃ l1 l2,
      st0.users = l1 ++ U0 :: l2 ∧
      (login st0 100 (some "a@b.com") (some " New Name ") none none
          none).1.users
        = l1 ++ { U0 with full_name := some (pyStrip " New Name "),
                          last_login_at := some 100 } :: l2 := by
  refine ⟨by decide, by decide, by decide, by decide, ?_⟩
  exact C10_full_name_overwrite st0 100 "a@b.com" " New Name " none none none
    U0 (by decide) (by decide) (by decide) (by decide)

/-- C8 counterexample: with the environment set to production (not
development), the dev login handler still sets its credential cookie with the
Secure attribute false. -/
theorem C8_counterexample_dev_cookie_not_secure :
    (some "production" : Option String) ≠ some "development" ∧
    ∃ c : SetCookie, (loginDev st0 0).2.cookie = some c ∧ c.secure = false := by
  refine ⟨by decide, ?_⟩
  obtain ⟨uid, _, hcookie⟩ := loginDev_shape st0 0
  exact ⟨_, hcookie, rfl⟩

/-- C8 amended: every credential cookie set by a login handler is HTTP-only,
SameSite=Lax, path "/", max-age the 7-day window; the cookie set by `login`
has Secure exactly when the environment is not development, while the cookie
set by `login_dev` always has Secure false. -/
theorem C8_cookie_attributes (st : Store) (now : Time)
    (emailIn fullNameIn ip ua env : Option String)
    (h : normEmail emailIn ≠ "") :
    (∃ c : SetCookie,
      (login st now emailIn fullNameIn ip ua env).2.cookie = some c ∧
      c.httponly = true ∧ c.samesite = "Lax" ∧ c.path = "/" ∧
      c.maxAge = sevenDaysSeconds ∧
      (c.secure = true ↔ env ≠ some "development")) ∧
    (∃ c : SetCookie,
      (loginDev st now).2.cookie = some c ∧
      c.httponly = true ∧ c.samesite = "Lax" ∧ c.path = "/" ∧
      c.maxAge = sevenDaysSeconds ∧ c.secure = false) := by
  constructor
  · obtain ⟨uid, _, _, _, hresp⟩ :=
      login_shape st now emailIn fullNameIn ip ua env h
    refine ⟨_, by rw [hresp], rfl, rfl, rfl, rfl, ?_⟩
    simp [cookieSettings]
  · obtain ⟨uid, _, hcookie⟩ := loginDev_shape st now
    exact ⟨_, hcookie, rfl, rfl, rfl, rfl, rfl⟩

/-- Witness for the amended C8 in a production environment. -/
theorem C8_cookie_attributes_witness :
    normEmail (some "a@b.com") ≠ "" ∧
    (∃ c : SetCookie,
      (login st0 100 (some "a@b.com") none none none
          (some "production")).2.cookie = some c ∧
      c.httponly = true ∧ c.samesite = "Lax" ∧ c.path = "/" ∧
      c.maxAge = sevenDaysSeconds ∧
      (c.secure = true ↔ (some "production" : Option String)
        ≠ some "development")) := by
  refine ⟨by decide, ?_⟩
  exact (C8_cookie_attributes st0 100 (some "a@b.com") none none none
    (some "production") (by decide)).1

end IvEvents
